import Mathlib

/-!
# Verification of the LGM loss module (`code/model/lgm.py`)

Shallow embedding of the large-margin Gaussian-mixture (LGM) loss module:
tensors of shape `(n, d)` become functions `Fin n → Fin d → ℝ`, the learned
parameter store of a loss module becomes a structure, and each intermediate
tensor of the `forward` computation becomes a Lean definition mirroring the
corresponding line of the Python source.  The fallible framework indexing
operations (`scatter_`, `index_select`) are additionally modelled with
`Except` semantics so that out-of-range labels can be reasoned about.
-/

open scoped BigOperators

/-- Errors relevant to the loss computation.  `invalidLabel` is the eager
validation error the specification's error taxonomy prescribes;
`indexOutOfRange` is the error surfaced by the tensor framework when an
indexing operation (`scatter_` / `index_select`) receives an out-of-range
index. -/
inductive LGMError where
  | invalidLabel : LGMError
  | indexOutOfRange : LGMError
deriving DecidableEq

/-- `torch.index_select(t, dim=0, index=idx)` for a table `t` with `c` rows,
indexed by a batch of raw integer indices.  The framework fails with an
out-of-range indexing error when any index is not in `[0, c)`. -/
noncomputable def torchIndexSelectE {c n : ℕ} {β : Type} (t : Fin c → β) (idx : Fin n → ℕ) :
    Except LGMError (Fin n → β) :=
  if h : ∀ i, idx i < c then Except.ok (fun i => t ⟨idx i, h i⟩)
  else Except.error LGMError.indexOutOfRange

/-- The one-hot construction of the source:
`y_onehot.zero_(); y_onehot.scatter_(1, label.unsqueeze(-1), alpha); y_onehot + 1.0`,
over raw integer labels.  `scatter_` fails with the framework's out-of-range
indexing error when any label is not in `[0, c)`. -/
noncomputable def torchScatterOnehotE (c : ℕ) {n : ℕ} (alpha : ℝ) (idx : Fin n → ℕ) :
    Except LGMError (Fin n → Fin c → ℝ) :=
  if h : ∀ i, idx i < c then
    Except.ok (fun i k => (if k = ⟨idx i, h i⟩ then alpha else 0) + 1.0)
  else Except.error LGMError.indexOutOfRange

/-- The learned state of `LGMLoss` (full, diagonal-covariance variant):
per-class center vectors and per-class per-dimension log-variances, plus the
fixed margin hyperparameter `alpha`.  `c` is `num_classes`, `d` is
`feat_dim`. -/
structure LGMLoss (c d : ℕ) where
  alpha : ℝ
  centers : Fin c → Fin d → ℝ
  log_covs : Fin c → Fin d → ℝ

namespace LGMLoss

variable {c d n : ℕ}

/-- `covs = torch.exp(log_covs)`. -/
noncomputable def covs (m : LGMLoss c d) (k : Fin c) (j : Fin d) : ℝ :=
  Real.exp (m.log_covs k j)

/-- `diff = feat.unsqueeze(1) - centers.unsqueeze(0)`  (shape `n*c*d`). -/
noncomputable def diff (m : LGMLoss c d) (feat : Fin n → Fin d → ℝ) (i : Fin n) (k : Fin c)
    (j : Fin d) : ℝ :=
  feat i j - m.centers k j

/-- `wdiff = torch.div(diff, tcovs)`. -/
noncomputable def wdiff (m : LGMLoss c d) (feat : Fin n → Fin d → ℝ) (i : Fin n) (k : Fin c)
    (j : Fin d) : ℝ :=
  m.diff feat i k j / m.covs k j

/-- `dist = torch.sum(torch.mul(diff, wdiff), dim=-1)`  (eq. (18)). -/
noncomputable def dist (m : LGMLoss c d) (feat : Fin n → Fin d → ℝ) (i : Fin n) (k : Fin c) : ℝ :=
  ∑ j, m.diff feat i k j * m.wdiff feat i k j

/-- The one-hot margin weights on valid labels:
`y_onehot.scatter_(1, label, alpha); y_onehot + 1.0`. -/
noncomputable def y_onehot (m : LGMLoss c d) (label : Fin n → Fin c) (i : Fin n) (k : Fin c) : ℝ :=
  (if k = label i then m.alpha else 0) + 1.0

/-- `margin_dist = torch.mul(dist, y_onehot)`. -/
noncomputable def margin_dist (m : LGMLoss c d) (feat : Fin n → Fin d → ℝ)
    (label : Fin n → Fin c) (i : Fin n) (k : Fin c) : ℝ :=
  m.dist feat i k * m.y_onehot label i k

/-- `slog_covs = torch.sum(log_covs, dim=-1)`. -/
noncomputable def slog_covs (m : LGMLoss c d) (k : Fin c) : ℝ :=
  ∑ j, m.log_covs k j

/-- `margin_logits = -0.5 * (tslog_covs + margin_dist)`  (eq. (17)). -/
noncomputable def margin_logits (m : LGMLoss c d) (feat : Fin n → Fin d → ℝ)
    (label : Fin n → Fin c) (i : Fin n) (k : Fin c) : ℝ :=
  -0.5 * (m.slog_covs k + m.margin_dist feat label i k)

/-- `logits = -0.5 * (tslog_covs + dist)`. -/
noncomputable def logits (m : LGMLoss c d) (feat : Fin n → Fin d → ℝ) (i : Fin n) (k : Fin c) : ℝ :=
  -0.5 * (m.slog_covs k + m.dist feat i k)

/-- `cdiff = feat - torch.index_select(centers, dim=0, index=label)`. -/
noncomputable def cdiff (m : LGMLoss c d) (feat : Fin n → Fin d → ℝ) (label : Fin n → Fin c)
    (i : Fin n) (j : Fin d) : ℝ :=
  feat i j - m.centers (label i) j

/-- `cdist = cdiff.pow(2).sum(1).sum(0) / 2.0`. -/
noncomputable def cdist (m : LGMLoss c d) (feat : Fin n → Fin d → ℝ) (label : Fin n → Fin c) : ℝ :=
  (∑ i, ∑ j, m.cdiff feat label i j ^ 2) / 2.0

/-- `reg = 0.5 * torch.sum(torch.index_select(slog_covs, dim=0, index=label))`. -/
noncomputable def reg (m : LGMLoss c d) (label : Fin n → Fin c) : ℝ :=
  0.5 * ∑ i, m.slog_covs (label i)

/-- `likelihood = (1.0 / batch_size) * (cdist + reg)`. -/
noncomputable def likelihood (m : LGMLoss c d) (feat : Fin n → Fin d → ℝ)
    (label : Fin n → Fin c) : ℝ :=
  (1.0 / (n : ℝ)) * (m.cdist feat label + m.reg label)

/-- `LGMLoss.forward`, on labels already known to be valid class indices:
returns `(logits, margin_logits, likelihood)`. -/
noncomputable def forward (m : LGMLoss c d) (feat : Fin n → Fin d → ℝ) (label : Fin n → Fin c) :
    (Fin n → Fin c → ℝ) × (Fin n → Fin c → ℝ) × ℝ :=
  (m.logits feat, m.margin_logits feat label, m.likelihood feat label)

/-- `LGMLoss.forward` on raw integer labels, with the fallible framework
indexing operations made explicit: the labels are NOT validated up front;
they flow, in source order, into `scatter_` (building `y_onehot`) and the two
`index_select` calls, and an out-of-range label surfaces as the framework's
indexing error from the first of these operations that runs. -/
noncomputable def forwardChecked (m : LGMLoss c d) (feat : Fin n → Fin d → ℝ)
    (label : Fin n → ℕ) :
    Except LGMError ((Fin n → Fin c → ℝ) × (Fin n → Fin c → ℝ) × ℝ) := do
  let yoh ← torchScatterOnehotE c m.alpha label
  let marginDist : Fin n → Fin c → ℝ := fun i k => m.dist feat i k * yoh i k
  let marginLogits : Fin n → Fin c → ℝ :=
    fun i k => -0.5 * (m.slog_covs k + marginDist i k)
  let logitsVal := m.logits feat
  let csel ← torchIndexSelectE m.centers label
  let cdiffVal : Fin n → Fin d → ℝ := fun i j => feat i j - csel i j
  let cdistVal : ℝ := (∑ i, ∑ j, cdiffVal i j ^ 2) / 2.0
  let ssel ← torchIndexSelectE m.slog_covs label
  let regVal : ℝ := 0.5 * ∑ i, ssel i
  let likelihoodVal : ℝ := (1.0 / (n : ℝ)) * (cdistVal + regVal)
  return (logitsVal, marginLogits, likelihoodVal)

end LGMLoss

/-- The learned state of `LGMLoss_v0` (identity-covariance variant): only
per-class centers and the margin hyperparameter. -/
structure LGMLoss_v0 (c d : ℕ) where
  alpha : ℝ
  centers : Fin c → Fin d → ℝ

namespace LGMLoss_v0

variable {c d n : ℕ}

/-- `dist = torch.sum(torch.mul(diff, diff), dim=-1)` with
`diff = feat.unsqueeze(1) - centers.unsqueeze(0)`. -/
noncomputable def dist (m : LGMLoss_v0 c d) (feat : Fin n → Fin d → ℝ) (i : Fin n)
    (k : Fin c) : ℝ :=
  ∑ j, (feat i j - m.centers k j) * (feat i j - m.centers k j)

/-- `y_onehot.scatter_(1, label, alpha); y_onehot + 1.0`. -/
noncomputable def y_onehot (m : LGMLoss_v0 c d) (label : Fin n → Fin c) (i : Fin n)
    (k : Fin c) : ℝ :=
  (if k = label i then m.alpha else 0) + 1.0

/-- `margin_dist = torch.mul(dist, y_onehot)`. -/
noncomputable def margin_dist (m : LGMLoss_v0 c d) (feat : Fin n → Fin d → ℝ)
    (label : Fin n → Fin c) (i : Fin n) (k : Fin c) : ℝ :=
  m.dist feat i k * m.y_onehot label i k

/-- `margin_logits = -0.5 * margin_dist`  (eq. (17)). -/
noncomputable def margin_logits (m : LGMLoss_v0 c d) (feat : Fin n → Fin d → ℝ)
    (label : Fin n → Fin c) (i : Fin n) (k : Fin c) : ℝ :=
  -0.5 * m.margin_dist feat label i k

/-- `logits = -0.5 * dist`. -/
noncomputable def logits (m : LGMLoss_v0 c d) (feat : Fin n → Fin d → ℝ) (i : Fin n)
    (k : Fin c) : ℝ :=
  -0.5 * m.dist feat i k

/-- `cdiff = feat - torch.index_select(centers, dim=0, index=label)`. -/
noncomputable def cdiff (m : LGMLoss_v0 c d) (feat : Fin n → Fin d → ℝ)
    (label : Fin n → Fin c) (i : Fin n) (j : Fin d) : ℝ :=
  feat i j - m.centers (label i) j

/-- `likelihood = (1.0 / batch_size) * cdiff.pow(2).sum(1).sum(0) / 2.0`. -/
noncomputable def likelihood (m : LGMLoss_v0 c d) (feat : Fin n → Fin d → ℝ)
    (label : Fin n → Fin c) : ℝ :=
  (1.0 / (n : ℝ)) * (∑ i, ∑ j, m.cdiff feat label i j ^ 2) / 2.0

/-- `LGMLoss_v0.forward` on valid labels:
returns `(logits, margin_logits, likelihood)`. -/
noncomputable def forward (m : LGMLoss_v0 c d) (feat : Fin n → Fin d → ℝ)
    (label : Fin n → Fin c) :
    (Fin n → Fin c → ℝ) × (Fin n → Fin c → ℝ) × ℝ :=
  (m.logits feat, m.margin_logits feat label, m.likelihood feat label)

/-- `LGMLoss_v0.forward` on raw integer labels with the fallible framework
indexing operations explicit, in source order (`scatter_` first, then the
`index_select` on `centers`); no up-front validation is performed. -/
noncomputable def forwardChecked (m : LGMLoss_v0 c d) (feat : Fin n → Fin d → ℝ)
    (label : Fin n → ℕ) :
    Except LGMError ((Fin n → Fin c → ℝ) × (Fin n → Fin c → ℝ) × ℝ) := do
  let yoh ← torchScatterOnehotE c m.alpha label
  let marginDist : Fin n → Fin c → ℝ := fun i k => m.dist feat i k * yoh i k
  let marginLogits : Fin n → Fin c → ℝ := fun i k => -0.5 * marginDist i k
  let logitsVal := m.logits feat
  let csel ← torchIndexSelectE m.centers label
  let cdiffVal : Fin n → Fin d → ℝ := fun i j => feat i j - csel i j
  let likelihoodVal : ℝ :=
    (1.0 / (n : ℝ)) * (∑ i, ∑ j, cdiffVal i j ^ 2) / 2.0
  return (logitsVal, marginLogits, likelihoodVal)

end LGMLoss_v0

/-- The index returned by `torch.max(v, dim)` for a (nonempty) row `v`: the
index of the FIRST maximal entry, obtained by a left-to-right scan that moves
only on a strictly larger value. -/
noncomputable def torchMaxIdx {α : Type} [LinearOrder α] {k : ℕ}
    (v : Fin (k + 1) → α) : Fin (k + 1) :=
  (List.finRange (k + 1)).foldl (fun best i => if v best < v i then i else best) 0

/-- A trained model as seen by `LGMUtils`: calling it on an input returns a
pair whose second component is the feature batch (`_, feats = model(X)`), and
it exposes its LGM loss module as `model.lgm`. -/
structure LGMModel (Input Output : Type) (n c d : ℕ) where
  net : Input → Output × (Fin n → Fin d → ℝ)
  lgm : LGMLoss c d

namespace LGMUtils

variable {Input Output : Type} {n k d : ℕ}

/-- `LGMUtils.is_anomalous`: run the model, compute the (unmargined) logits
of the LGM module on the extracted features with the claimed classes as
labels, take the arg-max predicted class per sample, and flag sample `i`
anomalous when the prediction disagrees with the claimed class
(`predicted != claimed_class`). -/
def is_anomalous (m : LGMModel Input Output n (k + 1) d)
    (claimed_class : Fin n → Fin (k + 1)) (X : Input) (i : Fin n) : Prop :=
  torchMaxIdx ((m.lgm.forward (m.net X).2 claimed_class).1 i) ≠ claimed_class i

/-- `(feats - fmean).norm(p=2, dim=1)` for one sample: the Euclidean norm of
a `d`-vector. -/
noncomputable def l2norm {d : ℕ} (v : Fin d → ℝ) : ℝ :=
  Real.sqrt (∑ j, v j ^ 2)

/-- `LGMUtils.get_likelihood`: run the model (under `no_grad`, which has no
observable effect on the returned value), select the center of the claimed
class of each sample (`fmean = model.lgm.centers[claimed_class]`), and return
`torch.exp(-0.5 * (feats - fmean).norm(p=2, dim=1) ** 2)` per sample. -/
noncomputable def get_likelihood {c : ℕ} (m : LGMModel Input Output n c d)
    (claimed_class : Fin n → Fin c) (X : Input) (i : Fin n) : ℝ :=
  Real.exp (-0.5 *
    l2norm (fun j => (m.net X).2 i j - m.lgm.centers (claimed_class i) j) ^ 2)

end LGMUtils

/-! ### Concrete instances used to exercise the definitions

`exModel` is the 2-class, 2-dimensional model of the spec's constructed
example for `is_anomalous`: centers `(0,0)` and `(10,10)`, `alpha = 0`, zero
log-variances, and an identity feature extractor.  The `w`-suffixed
definitions are small concrete inputs used to instantiate the general
theorems. -/

/-- A 2-class, 2-dimensional LGM module: centers `(0,0)` and `(10,10)`,
`alpha = 0`, all log-variances `0`. -/
noncomputable def exLgm : LGMLoss 2 2 :=
  ⟨0, fun k _ => if k = 0 then 0 else 10, fun _ _ => 0⟩

/-- The spec's constructed example model: `exLgm` behind an identity feature
extractor on single-sample batches. -/
noncomputable def exModel : LGMModel (Fin 1 → Fin 2 → ℝ) Unit 1 2 2 :=
  ⟨fun x => ((), x), exLgm⟩

/-- The feature batch `(0.1, 0.1)`. -/
noncomputable def exNear : Fin 1 → Fin 2 → ℝ := fun _ _ => 0.1

/-- The feature batch `(10, 10)`. -/
noncomputable def exFar : Fin 1 → Fin 2 → ℝ := fun _ _ => 10

/-- A concrete 1-class, 1-dimensional full-variant module with `alpha = 0`,
center `0` and log-variance `0`. -/
noncomputable def mW : LGMLoss 1 1 := ⟨0, fun _ _ => 0, fun _ _ => 0⟩

/-- A concrete 1-class, 1-dimensional identity-variant module with
`alpha = 0` and center `0`. -/
noncomputable def mW0 : LGMLoss_v0 1 1 := ⟨0, fun _ _ => 0⟩

/-- A concrete single-sample feature batch with value `3`. -/
noncomputable def featW : Fin 1 → Fin 1 → ℝ := fun _ _ => 3

/-- The constant label batch `0`. -/
def labelW : Fin 1 → Fin 1 := fun _ => 0

/-- A concrete 2-class, 1-dimensional full-variant module with `alpha = 1`,
centers `0` and `1`, log-variances `0`. -/
noncomputable def mW2 : LGMLoss 2 1 := ⟨1, fun k _ => if k = 0 then 0 else 1, fun _ _ => 0⟩

/-- A concrete 2-class, 1-dimensional identity-variant module with
`alpha = 1` and centers `0` and `1`. -/
noncomputable def mW2v0 : LGMLoss_v0 2 1 := ⟨1, fun k _ => if k = 0 then 0 else 1⟩

/-- A single-sample model over 1 class in 1 dimension with an identity
feature extractor and the `mW` module. -/
noncomputable def mU : LGMModel (Fin 1 → Fin 1 → ℝ) Unit 1 1 1 :=
  ⟨fun x => ((), x), mW⟩

/-- The feature batch `0` (exactly the center of class 0 of `mW`). -/
noncomputable def xA : Fin 1 → Fin 1 → ℝ := fun _ _ => 0

/-- The feature batch `1` (at distance 1 from the center of class 0). -/
noncomputable def xB : Fin 1 → Fin 1 → ℝ := fun _ _ => 1

/-- The constant label batch `0` over 2 classes. -/
def labelW2 : Fin 1 → Fin 2 := fun _ => 0

/-- A raw label batch holding the out-of-range label `1` for a 1-class
module. -/
def badLabelW : Fin 1 → ℕ := fun _ => 1

/-! ### Claim theorems -/

/-- C1: for every feature batch `feat` and every sample `i` and class `k`,
`LGMLoss.forward` computes
`dist[i,k] = ∑ j, (feat[i,j] - centers[k,j])^2 / exp(log_covs[k,j])` and
`logits[i,k] = -0.5 * (∑ j, log_covs[k,j] + dist[i,k])`. -/
theorem claim_C1_dist_and_logits_formula {c d n : ℕ} (m : LGMLoss c d)
    (feat : Fin n → Fin d → ℝ) (i : Fin n) (k : Fin c) :
    m.dist feat i k =
      ∑ j, (feat i j - m.centers k j) ^ 2 / Real.exp (m.log_covs k j) ∧
    m.logits feat i k =
      -0.5 * ((∑ j, m.log_covs k j) + m.dist feat i k) := by
  constructor
  · simp only [LGMLoss.dist, LGMLoss.wdiff, LGMLoss.diff, LGMLoss.covs]
    exact Finset.sum_congr rfl fun j _ => by rw [sq, mul_div_assoc]
  · rfl

/-- C2: in both variants, the margin-weighted distance multiplies `dist[i,k]`
by `1 + alpha` exactly when `k = label[i]` (else by `1`), and `margin_logits`
is the logit formula with the margin-weighted distance in place of `dist`. -/
theorem claim_C2_margin_weighting {c d n : ℕ} (m : LGMLoss c d)
    (m0 : LGMLoss_v0 c d) (feat : Fin n → Fin d → ℝ) (label : Fin n → Fin c)
    (i : Fin n) (k : Fin c) :
    m.margin_logits feat label i k =
      -0.5 * (m.slog_covs k +
        m.dist feat i k * (if k = label i then 1 + m.alpha else 1)) ∧
    m0.margin_logits feat label i k =
      -0.5 * (m0.dist feat i k * (if k = label i then 1 + m0.alpha else 1)) := by
  have hw : ∀ (a : ℝ), (if k = label i then a else 0) + 1.0 =
      (if k = label i then 1 + a else 1) := by
    intro a; split <;> ring
  constructor
  · unfold LGMLoss.margin_logits LGMLoss.margin_dist LGMLoss.y_onehot
    rw [hw]
  · unfold LGMLoss_v0.margin_logits LGMLoss_v0.margin_dist LGMLoss_v0.y_onehot
    rw [hw]

/-- C3: the likelihood regularizer of `LGMLoss.forward` is the batch mean of
`0.5 * (plain Euclidean squared distance to the own-class center) +
0.5 * (sum of the true class's log-variances)`, and on a single-sample batch
it equals that expression exactly. -/
theorem claim_C3_likelihood_regularizer {c d n : ℕ} (m : LGMLoss c d)
    (feat : Fin n → Fin d → ℝ) (label : Fin n → Fin c) :
    m.likelihood feat label =
      (1 / (n : ℝ)) * ∑ i,
        (0.5 * ∑ j, (feat i j - m.centers (label i) j) ^ 2 +
          0.5 * ∑ j, m.log_covs (label i) j) ∧
    ∀ (feat1 : Fin 1 → Fin d → ℝ) (label1 : Fin 1 → Fin c),
      m.likelihood feat1 label1 =
        0.5 * (∑ j, (feat1 0 j - m.centers (label1 0) j) ^ 2) +
          0.5 * ∑ j, m.log_covs (label1 0) j := by
  constructor
  · unfold LGMLoss.likelihood LGMLoss.cdist LGMLoss.reg LGMLoss.cdiff
      LGMLoss.slog_covs
    rw [Finset.sum_add_distrib, ← Finset.mul_sum, ← Finset.mul_sum]
    ring
  · intro feat1 label1
    unfold LGMLoss.likelihood LGMLoss.cdist LGMLoss.reg LGMLoss.cdiff
      LGMLoss.slog_covs
    rw [Fin.sum_univ_one, Fin.sum_univ_one]
    norm_num
    ring

/-- C7: when every entry of the full variant's `log_covs` is `0` and the two
variants share centers, the `dist` tensors of `LGMLoss.forward` and
`LGMLoss_v0.forward` agree on every feature batch. -/
theorem claim_C7_identity_covariance_dist_agree {c d n : ℕ} (m : LGMLoss c d)
    (m0 : LGMLoss_v0 c d) (hcov : ∀ k j, m.log_covs k j = 0)
    (hcen : m.centers = m0.centers) (feat : Fin n → Fin d → ℝ) (i : Fin n)
    (k : Fin c) :
    m.dist feat i k = m0.dist feat i k := by
  simp only [LGMLoss.dist, LGMLoss.wdiff, LGMLoss.diff, LGMLoss.covs,
    LGMLoss_v0.dist, hcov, hcen, Real.exp_zero, div_one]

/-- Witness for C7 at the concrete modules `mW`, `mW0` and feature batch
`featW`. -/
theorem claim_C7_identity_covariance_dist_agree_witness :
    (∀ k j, mW.log_covs k j = 0) ∧ mW.centers = mW0.centers ∧
    mW.dist featW 0 0 = mW0.dist featW 0 0 :=
  ⟨fun _ _ => rfl, rfl,
    claim_C7_identity_covariance_dist_agree mW mW0 (fun _ _ => rfl) rfl featW 0 0⟩

/-- C8: with `alpha = 0`, `margin_logits` coincides with `logits` in both
variants, entrywise. -/
theorem claim_C8_zero_alpha_margin_is_logits {c d n : ℕ} (m : LGMLoss c d)
    (m0 : LGMLoss_v0 c d) (feat : Fin n → Fin d → ℝ) (label : Fin n → Fin c)
    (i : Fin n) (k : Fin c) :
    (m.alpha = 0 → m.margin_logits feat label i k = m.logits feat i k) ∧
    (m0.alpha = 0 → m0.margin_logits feat label i k = m0.logits feat i k) := by
  constructor <;> intro h <;>
    simp only [LGMLoss.margin_logits, LGMLoss.logits, LGMLoss.margin_dist,
      LGMLoss.y_onehot, LGMLoss_v0.margin_logits, LGMLoss_v0.logits,
      LGMLoss_v0.margin_dist, LGMLoss_v0.y_onehot, h, ite_self] <;>
    norm_num

/-- Witness for C8 at the concrete modules `mW` (full) and `mW0` (identity),
both with `alpha = 0`. -/
theorem claim_C8_zero_alpha_margin_is_logits_witness :
    (mW.alpha = 0 ∧ mW.margin_logits featW labelW 0 0 = mW.logits featW 0 0) ∧
    (mW0.alpha = 0 ∧
      mW0.margin_logits featW labelW 0 0 = mW0.logits featW 0 0) :=
  ⟨⟨rfl, (claim_C8_zero_alpha_margin_is_logits mW mW0 featW labelW 0 0).1 rfl⟩,
   ⟨rfl, (claim_C8_zero_alpha_margin_is_logits mW mW0 featW labelW 0 0).2 rfl⟩⟩

/-- C9: the likelihood regularizer of both variants is invariant under
permuting the samples of the batch (features and labels permuted
together). -/
theorem claim_C9_likelihood_permutation_invariant {c d n : ℕ}
    (m : LGMLoss c d) (m0 : LGMLoss_v0 c d) (feat : Fin n → Fin d → ℝ)
    (label : Fin n → Fin c) (σ : Equiv.Perm (Fin n)) :
    m.likelihood (fun i => feat (σ i)) (fun i => label (σ i)) =
      m.likelihood feat label ∧
    m0.likelihood (fun i => feat (σ i)) (fun i => label (σ i)) =
      m0.likelihood feat label := by
  have hsum : ∀ g : Fin n → ℝ, ∑ i, g (σ i) = ∑ i, g i := fun g =>
    Equiv.sum_comp σ g
  constructor
  · unfold LGMLoss.likelihood LGMLoss.cdist LGMLoss.reg LGMLoss.cdiff
    rw [hsum (fun i => ∑ j, (feat i j - m.centers (label i) j) ^ 2),
      hsum (fun i => m.slog_covs (label i))]
  · unfold LGMLoss_v0.likelihood LGMLoss_v0.cdiff
    rw [hsum (fun i => ∑ j, (feat i j - m0.centers (label i) j) ^ 2)]

/-- C10: for any `alpha`, the margin changes only the true-class entry of
each sample's logit row: whenever `k ≠ label i`, `margin_logits i k` equals
`logits i k`, in both variants. -/
theorem claim_C10_margin_touches_only_true_class {c d n : ℕ}
    (m : LGMLoss c d) (m0 : LGMLoss_v0 c d) (feat : Fin n → Fin d → ℝ)
    (label : Fin n → Fin c) (i : Fin n) (k : Fin c) (h : k ≠ label i) :
    m.margin_logits feat label i k = m.logits feat i k ∧
    m0.margin_logits feat label i k = m0.logits feat i k := by
  constructor <;>
    simp only [LGMLoss.margin_logits, LGMLoss.logits, LGMLoss.margin_dist,
      LGMLoss.y_onehot, LGMLoss_v0.margin_logits, LGMLoss_v0.logits,
      LGMLoss_v0.margin_dist, LGMLoss_v0.y_onehot, if_neg h] <;>
    norm_num

/-- Witness for C10 at the concrete 2-class modules `mW2`, `mW2v0` with
`alpha = 1`, on the off-label entry `k = 1` of a sample labelled `0`. -/
theorem claim_C10_margin_touches_only_true_class_witness :
    ((1 : Fin 2) ≠ labelW2 0) ∧
    mW2.margin_logits featW labelW2 0 1 = mW2.logits featW 0 1 ∧
    mW2v0.margin_logits featW labelW2 0 1 = mW2v0.logits featW 0 1 :=
  ⟨by decide,
    (claim_C10_margin_touches_only_true_class mW2 mW2v0 featW labelW2 0 1
      (by decide)).1,
    (claim_C10_margin_touches_only_true_class mW2 mW2v0 featW labelW2 0 1
      (by decide)).2⟩

/-- Helper: the squared Euclidean norm is the sum of squares. -/
theorem l2norm_sq {d : ℕ} (v : Fin d → ℝ) :
    LGMUtils.l2norm v ^ 2 = ∑ j, v j ^ 2 :=
  Real.sq_sqrt (Finset.sum_nonneg fun _ _ => sq_nonneg _)

/-- C4: `get_likelihood` returns
`exp (-0.5 * squared Euclidean distance of the extracted feature to the
claimed class's center)`; it returns `1` when the feature equals that center
exactly, and it strictly decreases as the Euclidean distance grows. -/
theorem claim_C4_get_likelihood_gaussian {Input Output : Type} {n c d : ℕ}
    (m : LGMModel Input Output n c d) (claimed : Fin n → Fin c) (X Y : Input)
    (i : Fin n) :
    LGMUtils.get_likelihood m claimed X i =
      Real.exp (-0.5 *
        ∑ j, ((m.net X).2 i j - m.lgm.centers (claimed i) j) ^ 2) ∧
    ((∀ j, (m.net X).2 i j = m.lgm.centers (claimed i) j) →
      LGMUtils.get_likelihood m claimed X i = 1) ∧
    (LGMUtils.l2norm (fun j => (m.net X).2 i j - m.lgm.centers (claimed i) j) <
        LGMUtils.l2norm
          (fun j => (m.net Y).2 i j - m.lgm.centers (claimed i) j) →
      LGMUtils.get_likelihood m claimed Y i <
        LGMUtils.get_likelihood m claimed X i) := by
  have hform : ∀ Z : Input, LGMUtils.get_likelihood m claimed Z i =
      Real.exp (-0.5 *
        ∑ j, ((m.net Z).2 i j - m.lgm.centers (claimed i) j) ^ 2) := by
    intro Z
    unfold LGMUtils.get_likelihood
    rw [l2norm_sq]
  refine ⟨hform X, ?_, ?_⟩
  · intro h
    rw [hform X]
    simp [h]
  · intro h
    have hX : (0 : ℝ) ≤
        ∑ j, ((m.net X).2 i j - m.lgm.centers (claimed i) j) ^ 2 :=
      Finset.sum_nonneg fun _ _ => sq_nonneg _
    have hsum : (∑ j, ((m.net X).2 i j - m.lgm.centers (claimed i) j) ^ 2) <
        ∑ j, ((m.net Y).2 i j - m.lgm.centers (claimed i) j) ^ 2 :=
      (Real.sqrt_lt_sqrt_iff hX).mp h
    rw [hform X, hform Y, Real.exp_lt_exp]
    nlinarith

/-- Witness for C4 at the concrete model `mU`: the feature batch `xA` sits
exactly on the class-0 center (likelihood `1`), and the feature batch `xB`
is strictly farther away, so its likelihood is strictly smaller. -/
theorem claim_C4_get_likelihood_gaussian_witness :
    (∀ j, (mU.net xA).2 0 j = mU.lgm.centers (labelW 0) j) ∧
    LGMUtils.get_likelihood mU labelW xA 0 = 1 ∧
    LGMUtils.l2norm (fun j => (mU.net xA).2 0 j - mU.lgm.centers (labelW 0) j) <
      LGMUtils.l2norm
        (fun j => (mU.net xB).2 0 j - mU.lgm.centers (labelW 0) j) ∧
    LGMUtils.get_likelihood mU labelW xB 0 <
      LGMUtils.get_likelihood mU labelW xA 0 := by
  have hlt : LGMUtils.l2norm
      (fun j => (mU.net xA).2 0 j - mU.lgm.centers (labelW 0) j) <
      LGMUtils.l2norm
        (fun j => (mU.net xB).2 0 j - mU.lgm.centers (labelW 0) j) := by
    show Real.sqrt (∑ j : Fin 1, ((0 : ℝ) - 0) ^ 2) <
      Real.sqrt (∑ j : Fin 1, ((1 : ℝ) - 0) ^ 2)
    rw [Fin.sum_univ_one, Fin.sum_univ_one]
    norm_num
  exact ⟨fun _ => rfl,
    (claim_C4_get_likelihood_gaussian mU labelW xA xB 0).2.1 (fun _ => rfl),
    hlt,
    (claim_C4_get_likelihood_gaussian mU labelW xA xB 0).2.2 hlt⟩

/-- Helper: on a two-entry row, `torchMaxIdx` picks index `1` exactly when
the second entry is strictly larger (first-maximal tie-breaking). -/
theorem torchMaxIdx_pair {α : Type} [LinearOrder α] (v : Fin (1 + 1) → α) :
    torchMaxIdx v = if v 0 < v 1 then 1 else 0 := by
  have h2 : List.finRange (1 + 1) = [0, 1] := by decide
  rw [torchMaxIdx, h2]
  simp only [List.foldl_cons, List.foldl_nil, ite_self]

/-- Helper: on the example model, the unmargined logit of class 0 beats
class 1 on the feature batch `(0.1, 0.1)`. -/
theorem exNear_logits_lt : exLgm.logits exNear 0 1 < exLgm.logits exNear 0 0 := by
  simp only [LGMLoss.logits, LGMLoss.dist, LGMLoss.diff, LGMLoss.wdiff,
    LGMLoss.covs, LGMLoss.slog_covs, exLgm, exNear, Fin.sum_univ_two]
  norm_num [Real.exp_zero]

/-- Helper: on the example model, the unmargined logit of class 1 beats
class 0 on the feature batch `(10, 10)`. -/
theorem exFar_logits_lt : exLgm.logits exFar 0 0 < exLgm.logits exFar 0 1 := by
  simp only [LGMLoss.logits, LGMLoss.dist, LGMLoss.diff, LGMLoss.wdiff,
    LGMLoss.covs, LGMLoss.slog_covs, exLgm, exFar, Fin.sum_univ_two]
  norm_num [Real.exp_zero]

/-- C5: `is_anomalous` is false exactly when the arg-max class of the
unmargined logits computed on the extracted features equals the claimed
class; on the constructed 2-class, 2-dimensional example (`exModel`: centers
`(0,0)` and `(10,10)`, `alpha = 0`, identity feature extractor), the feature
batch `(0.1, 0.1)` claimed as class 0 is not anomalous while the feature
batch `(10, 10)` claimed as class 0 is anomalous. -/
theorem claim_C5_is_anomalous_argmax {Input Output : Type} {n k d : ℕ}
    (m : LGMModel Input Output n (k + 1) d) (claimed : Fin n → Fin (k + 1))
    (X : Input) (i : Fin n) :
    (¬ LGMUtils.is_anomalous m claimed X i ↔
      torchMaxIdx ((m.lgm.forward (m.net X).2 claimed).1 i) = claimed i) ∧
    ¬ LGMUtils.is_anomalous exModel (fun _ => 0) exNear 0 ∧
    LGMUtils.is_anomalous exModel (fun _ => 0) exFar 0 := by
  refine ⟨not_not, ?_, ?_⟩
  · show ¬ (torchMaxIdx (fun kk => exLgm.logits exNear 0 kk) ≠ 0)
    rw [not_not, torchMaxIdx_pair]
    exact if_neg (lt_asymm exNear_logits_lt)
  · show torchMaxIdx (fun kk => exLgm.logits exFar 0 kk) ≠ 0
    rw [torchMaxIdx_pair, if_pos exFar_logits_lt]
    decide

/-- C6 (amended): neither `LGMLoss.forward` nor `LGMLoss_v0.forward`
validates its labels; a label batch with an entry outside `[0, num_classes)`
flows straight into the framework indexing operations (`scatter_` first),
and the call fails with the framework's out-of-range indexing error — not
with an eager `InvalidLabel` validation error. -/
theorem claim_C6_no_eager_validation {c d n : ℕ} (m : LGMLoss c d)
    (m0 : LGMLoss_v0 c d) (feat : Fin n → Fin d → ℝ) (label : Fin n → ℕ)
    (h : ¬ ∀ i, label i < c) :
    m.forwardChecked feat label = Except.error LGMError.indexOutOfRange ∧
    m0.forwardChecked feat label = Except.error LGMError.indexOutOfRange := by
  constructor
  · unfold LGMLoss.forwardChecked torchScatterOnehotE
    rw [dif_neg h]
    rfl
  · unfold LGMLoss_v0.forwardChecked torchScatterOnehotE
    rw [dif_neg h]
    rfl

/-- Witness for C6 at the concrete modules `mW`, `mW0` with the out-of-range
label batch `badLabelW` (label `1` for a 1-class module). -/
theorem claim_C6_no_eager_validation_witness :
    (¬ ∀ i, badLabelW i < 1) ∧
    LGMLoss.forwardChecked mW featW badLabelW =
      Except.error LGMError.indexOutOfRange ∧
    LGMLoss_v0.forwardChecked mW0 featW badLabelW =
      Except.error LGMError.indexOutOfRange :=
  ⟨by decide,
    (claim_C6_no_eager_validation mW mW0 featW badLabelW (by decide)).1,
    (claim_C6_no_eager_validation mW mW0 featW badLabelW (by decide)).2⟩

/-- Counterexample for C6 as stated: on an out-of-range label batch the
error `LGMLoss.forward` surfaces is NOT the eager `InvalidLabel` validation
error (it is the framework's out-of-range indexing error). -/
theorem claim_C6_counterexample :
    LGMLoss.forwardChecked mW featW badLabelW ≠
      Except.error LGMError.invalidLabel := by
  have he : LGMLoss.forwardChecked mW featW badLabelW =
      Except.error LGMError.indexOutOfRange := by
    unfold LGMLoss.forwardChecked torchScatterOnehotE
    rw [dif_neg (by decide : ¬ ∀ i, badLabelW i < 1)]
    rfl
  rw [he]
  simp
